import Mathlib

/-!
Verification of the adaptive capacity prober of the SAWL repository
(src/limit_probe.py and src/limit_probe_prod.py) against its design
specification.  The Python functions are shallowly embedded as executable
Lean definitions: strings become `List Char`/`String`, Python integers
become `Int`, the binary-search loop becomes a fuel-indexed step function,
and fallible code returns `Except`/`Option`.  The HTTP service is an
oracle parameter, since the loop observes a trial only through its
classified outcome.
-/

set_option maxRecDepth 10000

/-! ## Python string primitives (restricted to the character ranges the
prober manipulates: ASCII and Latin-1; wider Unicode whitespace classes of
Python are not modelled). -/

/-- Characters stripped by Python `str.strip()` and matched by the regex
class `\s` (ASCII and Latin-1 part). -/
def pyIsSpace (c : Char) : Bool :=
  c = ' ' || c = '\t' || c = '\n' || c = '\r' || c = '\x0b' || c = '\x0c' ||
  c = '\x1c' || c = '\x1d' || c = '\x1e' || c = '\x1f' || c = '\x85' || c = '\xa0'

/-- Python `str.lstrip()` on a character list. -/
def pyLstrip (cs : List Char) : List Char := cs.dropWhile pyIsSpace

/-- Python `str.rstrip()` on a character list. -/
def pyRstrip (cs : List Char) : List Char := (cs.reverse.dropWhile pyIsSpace).reverse

/-- Python `str.strip()` on a character list. -/
def pyStrip (cs : List Char) : List Char := pyRstrip (pyLstrip cs)

/-- Python `str.startswith` on character lists. -/
def listStartsWith : List Char → List Char → Bool
  | [], _ => true
  | _ :: _, [] => false
  | p :: ps, c :: cs => p = c && listStartsWith ps cs

/-- Python `str.endswith` on character lists. -/
def listEndsWith (p cs : List Char) : Bool := listStartsWith p.reverse cs.reverse

/-- ASCII decimal digit, the regex class `\d` (ASCII part). -/
def isDigitC (c : Char) : Bool := '0' ≤ c && c ≤ '9'

/-- Regex word character `\w` (ASCII part), used for the boundary `\b`. -/
def isWordC (c : Char) : Bool := c.isAlpha || isDigitC c || c = '_'

/-! ## JSON values and a model of Python `json.loads`

`json.loads` accepts objects, arrays, strings (with escapes), numbers,
`true`, `false`, `null` and the Python extensions `NaN`, `Infinity` and
`-Infinity`; it rejects trailing data, trailing commas, unescaped control
characters in strings and malformed escapes.  Number values are kept as
their lexemes since the prober never computes with them. -/

inductive JVal where
  | null : JVal
  | bool (b : Bool) : JVal
  | num (lit : String) : JVal
  | str (s : String) : JVal
  | arr (xs : List JVal) : JVal
  | obj (kvs : List (String × JVal)) : JVal

/-- JSON whitespace accepted between tokens by `json.loads`. -/
def jsonWs (c : Char) : Bool := c = ' ' || c = '\t' || c = '\n' || c = '\r'

/-- Value of a hexadecimal digit, by code point: 48-57 are the decimal
digits, 97-102 the lowercase and 65-70 the uppercase letters a-f. -/
def hexDigitVal (c : Char) : Option Nat :=
  let n := c.toNat
  if 48 ≤ n && n ≤ 57 then some (n - 48)
  else if 97 ≤ n && n ≤ 102 then some (n - 87)
  else if 65 ≤ n && n ≤ 70 then some (n - 55)
  else none

/-- Consume four hexadecimal digits (the `XXXX` of a `\u` escape) from
the front of the input and return their value and the rest. -/
def hexEsc (cs : List Char) : Option (Nat × List Char) :=
  match cs with
  | a :: b :: c :: d :: r =>
      match hexDigitVal a, hexDigitVal b, hexDigitVal c, hexDigitVal d with
      | some x, some y, some z, some w => some ((((x * 16 + y) * 16 + z) * 16 + w), r)
      | _, _, _, _ => none
  | _ => none

/-- Body of a JSON string literal, after the opening quote: returns the
decoded characters and the rest of the input.  Surrogate pairs in `\u`
escapes are combined; a lone surrogate (which Python would keep as a
surrogate code unit, not representable in a Lean `Char`) is replaced by
U+FFFD.  Fuel-indexed; the initial fuel exceeds the input length. -/
def strBody : Nat → List Char → Option (List Char × List Char)
  | 0, _ => none
  | _ + 1, [] => none
  | _ + 1, '"' :: r => some ([], r)
  | n + 1, '\\' :: 'u' :: r0 =>
      match hexEsc r0 with
      | none => none
      | some (code, r) =>
        if 0xD800 ≤ code && code ≤ 0xDBFF then
          match r with
          | '\\' :: 'u' :: r1 =>
              match hexEsc r1 with
              | none => none
              | some (code2, r2) =>
                if 0xDC00 ≤ code2 && code2 ≤ 0xDFFF then
                  match strBody n r2 with
                  | some (s, rest) =>
                      some (Char.ofNat (0x10000 + (code - 0xD800) * 0x400 + (code2 - 0xDC00)) :: s, rest)
                  | none => none
                else
                  match strBody n ('\\' :: 'u' :: r1) with
                  | some (s, rest) => some ('\ufffd' :: s, rest)
                  | none => none
          | _ =>
              match strBody n r with
              | some (s, rest) => some ('\ufffd' :: s, rest)
              | none => none
        else if 0xDC00 ≤ code && code ≤ 0xDFFF then
          match strBody n r with
          | some (s, rest) => some ('\ufffd' :: s, rest)
          | none => none
        else
          match strBody n r with
          | some (s, rest) => some (Char.ofNat code :: s, rest)
          | none => none
  | n + 1, '\\' :: e :: r =>
      let dec : Option Char :=
        if e = '"' then some '"'
        else if e = '\\' then some '\\'
        else if e = '/' then some '/'
        else if e = 'b' then some '\x08'
        else if e = 'f' then some '\x0c'
        else if e = 'n' then some '\n'
        else if e = 'r' then some '\r'
        else if e = 't' then some '\t'
        else none
      match dec with
      | none => none
      | some ch =>
          match strBody n r with
          | some (s, rest) => some (ch :: s, rest)
          | none => none
  | n + 1, c :: r =>
      if c.toNat < 0x20 then none
      else
        match strBody n r with
        | some (s, rest) => some (c :: s, rest)
        | none => none

/-- Parse a JSON string literal body starting just after the opening quote. -/
def parseStringBody (cs : List Char) : Option (String × List Char) :=
  match strBody (cs.length + 1) cs with
  | some (s, rest) => some (String.mk s, rest)
  | none => none

/-- Greedily take ASCII digits. -/
def takeDigits (cs : List Char) : List Char × List Char :=
  (cs.takeWhile isDigitC, cs.dropWhile isDigitC)

/-- Optional fraction part `\.[0-9]+` of a JSON number. -/
def parseFrac : List Char → List Char × List Char
  | '.' :: r =>
      match takeDigits r with
      | ([], _) => ([], '.' :: r)
      | (ds, r2) => ('.' :: ds, r2)
  | cs => ([], cs)

/-- Optional exponent part `[eE][-+]?[0-9]+` of a JSON number. -/
def parseExp : List Char → List Char × List Char
  | e :: r =>
      if e = 'e' || e = 'E' then
        match r with
        | s :: r1 =>
            if s = '+' || s = '-' then
              match takeDigits r1 with
              | ([], _) => ([], e :: s :: r1)
              | (ds, r2) => (e :: s :: ds, r2)
            else
              match takeDigits r with
              | ([], _) => ([], e :: r)
              | (ds, r2) => (e :: ds, r2)
        | [] => ([], [e])
      else ([], e :: r)
  | [] => ([], [])

/-- JSON number literal `-?(0|[1-9][0-9]*)(\.[0-9]+)?([eE][-+]?[0-9]+)?`,
kept as its lexeme. -/
def parseNumber (cs : List Char) : Option (JVal × List Char) :=
  let (sgn, cs1) : List Char × List Char :=
    match cs with
    | '-' :: r => (['-'], r)
    | _ => ([], cs)
  match cs1 with
  | '0' :: r =>
      let (fr, r2) := parseFrac r
      let (ex, r3) := parseExp r2
      some (JVal.num (String.mk (sgn ++ '0' :: fr ++ ex)), r3)
  | c :: r =>
      if '1' ≤ c && c ≤ '9' then
        let (ds, r1) := takeDigits r
        let (fr, r2) := parseFrac r1
        let (ex, r3) := parseExp r2
        some (JVal.num (String.mk (sgn ++ c :: ds ++ fr ++ ex)), r3)
      else none
  | [] => none

/-- Parser mode: a value, the members of an object after `\x7b`, or the
elements of an array after `[`. -/
inductive PMode where
  | val : PMode
  | objRest (acc : List (String × JVal)) : PMode
  | arrRest (acc : List JVal) : PMode

/-- Recursive-descent core of `json.loads`.  Fuel-indexed; every call site
supplies fuel exceeding twice the input length, which dominates the
recursion depth. -/
def parseCore : Nat → PMode → List Char → Option (JVal × List Char)
  | 0, _, _ => none
  | n + 1, PMode.val, cs =>
      let w := cs.dropWhile jsonWs
      if listStartsWith "true".data w then some (JVal.bool true, w.drop 4)
      else if listStartsWith "false".data w then some (JVal.bool false, w.drop 5)
      else if listStartsWith "null".data w then some (JVal.null, w.drop 4)
      else if listStartsWith "NaN".data w then some (JVal.num "NaN", w.drop 3)
      else if listStartsWith "Infinity".data w then some (JVal.num "Infinity", w.drop 8)
      else if listStartsWith "-Infinity".data w then some (JVal.num "-Infinity", w.drop 9)
      else
        match w with
        | '\x7b' :: r => parseCore n (PMode.objRest []) r
        | '[' :: r => parseCore n (PMode.arrRest []) r
        | '"' :: r =>
            match parseStringBody r with
            | some (s, r2) => some (JVal.str s, r2)
            | none => none
        | rest => parseNumber rest
  | n + 1, PMode.objRest acc, cs =>
      match cs.dropWhile jsonWs with
      | '\x7d' :: r => if acc.isEmpty then some (JVal.obj [], r) else none
      | '"' :: r =>
          match parseStringBody r with
          | none => none
          | some (k, r2) =>
              match r2.dropWhile jsonWs with
              | ':' :: r3 =>
                  match parseCore n PMode.val r3 with
                  | none => none
                  | some (v, r4) =>
                      match r4.dropWhile jsonWs with
                      | ',' :: r5 => parseCore n (PMode.objRest (acc ++ [(k, v)])) r5
                      | '\x7d' :: r5 => some (JVal.obj (acc ++ [(k, v)]), r5)
                      | _ => none
              | _ => none
      | _ => none
  | n + 1, PMode.arrRest acc, cs =>
      match cs.dropWhile jsonWs with
      | ']' :: r => if acc.isEmpty then some (JVal.arr [], r) else none
      | rest =>
          match parseCore n PMode.val rest with
          | none => none
          | some (v, r2) =>
              match r2.dropWhile jsonWs with
              | ',' :: r3 => parseCore n (PMode.arrRest (acc ++ [v])) r3
              | ']' :: r3 => some (JVal.arr (acc ++ [v]), r3)
              | _ => none

/-- Model of Python `json.loads`: parse one value and require only
whitespace after it. -/
def jsonLoads (s : String) : Option JVal :=
  match parseCore (2 * s.data.length + 4) PMode.val s.data with
  | some (v, rest) => if rest.dropWhile jsonWs = [] then some v else none
  | none => none

/-- Whether `json.loads` accepts the string. -/
def jsonParses (s : String) : Bool := (jsonLoads s).isSome

/-- Python `dict.get` for a dict built by `json.loads`: with duplicate
keys the later binding wins. -/
def dict_get (kvs : List (String × JVal)) (k : String) : Option JVal :=
  match kvs.reverse.find? (fun p => p.1 == k) with
  | some p => some p.2
  | none => none

/-! ## Response classification (src/limit_probe.py lines 88-163) -/

/-- Outcome categories of `classify_outcome` (src/limit_probe.py line 139). -/
inductive Outcome where
  | OK_JSON : Outcome
  | OK_TEXT : Outcome
  | STUB : Outcome
  | BAD_JSON : Outcome
  | EMPTY : Outcome
  | TRUNCATED : Outcome
  | ERROR : Outcome
deriving DecidableEq

/-- Case-insensitive literal match (regex with `re.IGNORECASE`), returning
the rest of the input on success. -/
def matchLitCI : List Char → List Char → Option (List Char)
  | [], rest => some rest
  | _ :: _, [] => none
  | l :: ls, c :: cs => if c.toLower = l.toLower then matchLitCI ls cs else none

/-- The regex `^\s*\d+\.\s+The speaker\b` with `re.IGNORECASE`
(src/limit_probe.py line 98), applied with `re.match` (anchored at the
start, not required to reach the end). -/
def stubPat1 (t : List Char) : Bool :=
  let t1 := t.dropWhile pyIsSpace
  let ds := t1.takeWhile isDigitC
  let t2 := t1.dropWhile isDigitC
  if ds.isEmpty then false
  else
    match t2 with
    | '.' :: t3 =>
        let sp := t3.takeWhile pyIsSpace
        let t4 := t3.dropWhile pyIsSpace
        if sp.isEmpty then false
        else
          match matchLitCI "The speaker".data t4 with
          | none => false
          | some rest =>
              match rest with
              | [] => true
              | c :: _ => !(isWordC c)
    | _ => false

/-- The regex `^\s*\d+\.\s+` (src/limit_probe.py line 101), applied with
`re.match`. -/
def stubPat2 (t : List Char) : Bool :=
  let t1 := t.dropWhile pyIsSpace
  let ds := t1.takeWhile isDigitC
  let t2 := t1.dropWhile isDigitC
  if ds.isEmpty then false
  else
    match t2 with
    | '.' :: t3 => !(t3.takeWhile pyIsSpace).isEmpty
    | _ => false

/-- src/limit_probe.py lines 88-103: heuristic for a degenerate outline
stub. -/
def looks_like_stub (resp_text : String) : Bool :=
  let t := pyStrip resp_text.data
  if t.isEmpty then true
  else if t.length < 80 && stubPat1 t then true
  else if t.length < 120 && stubPat2 t then true
  else false

/-- Index of the first occurrence of a character, Python `str.find`
(-1 when absent). -/
def pyFind (cs : List Char) (c : Char) : Int :=
  match cs.findIdx? (fun x => x = c) with
  | some i => (i : Int)
  | none => -1

/-- Index of the last occurrence of a character, Python `str.rfind`
(-1 when absent). -/
def pyRfind (cs : List Char) (c : Char) : Int :=
  match cs.reverse.findIdx? (fun x => x = c) with
  | some i => ((cs.length - 1 - i : Nat) : Int)
  | none => -1

/-- src/limit_probe.py lines 106-133: check whether the response text
contains a parseable JSON object.  Fast path: if the stripped text both
starts with a left brace and ends with a right brace, the whole text must
parse.  Fallback: the slice from the first left brace through the last
right brace must parse. -/
def try_parse_json_output (resp_text : String) : Bool :=
  let t := pyStrip resp_text.data
  if t.isEmpty then false
  else if listStartsWith ['\x7b'] t && listEndsWith ['\x7d'] t then
    jsonParses (String.mk t)
  else
    let start := pyFind t '\x7b'
    let stop := pyRfind t '\x7d'
    if start = -1 || stop = -1 || stop ≤ start then false
    else jsonParses (String.mk ((t.drop start.toNat).take (stop.toNat + 1 - start.toNat)))

/-- src/limit_probe.py lines 136-163: assign exactly one outcome by a
fixed first-match order: internal exception marker, empty, stub, then
(for structured mode) JSON parse / truncation / malformed, or (for text
mode) truncation / plain success. -/
def classify_outcome (resp_text : String) (want_json : Bool) (done_reason : String) : Outcome :=
  let t := pyStrip resp_text.data
  if listStartsWith "__EXCEPTION__".data t then Outcome.ERROR
  else if t.isEmpty then Outcome.EMPTY
  else if looks_like_stub (String.mk t) then Outcome.STUB
  else if want_json then
    if try_parse_json_output (String.mk t) then Outcome.OK_JSON
    else if done_reason = "length" then Outcome.TRUNCATED
    else Outcome.BAD_JSON
  else if done_reason = "length" then Outcome.TRUNCATED
  else Outcome.OK_TEXT

/-! ## Trial runner of the standalone prober
(src/limit_probe.py lines 51-85 and 178-231) -/

/-- What the HTTP layer produced for one request: a response (any status),
an `HTTPError` carrying a status and body (urllib raises these for
non-2xx), or another exception such as a network failure or timeout. -/
inductive NetOutcome where
  | ok (status : Int) (body : String) : NetOutcome
  | httpError (code : Int) (body : String) : NetOutcome
  | exc (name msg : String) : NetOutcome

/-- src/limit_probe.py lines 51-69: `post_ollama` returns the status and
body; an `HTTPError` is converted to its code and body; any other
exception is converted to status 0 and a synthetic marker string. -/
def post_ollama : NetOutcome → Int × String
  | NetOutcome.ok status body => (status, body)
  | NetOutcome.httpError code body => (code, body)
  | NetOutcome.exc name msg => (0, "__EXCEPTION__ " ++ name ++ ": " ++ msg)

/-- Result of `extract_generate_fields`: either the parsed envelope dict
or the parse-error dict carrying the left-stripped body under `_raw`. -/
inductive Envelope where
  | fields (kvs : List (String × JVal)) : Envelope
  | parseFail (raw : List Char) : Envelope

/-- src/limit_probe.py lines 72-85: left-strip the body; if it does not
start with a left brace, or `json.loads` fails, return the parse-error
dict (whose `_raw` is the left-stripped body); otherwise the parsed dict. -/
def extract_generate_fields (http_text : String) : Envelope :=
  let t := pyLstrip http_text.data
  if listStartsWith ['\x7b'] t then
    match jsonLoads (String.mk t) with
    | some (JVal.obj kvs) => Envelope.fields kvs
    | _ => Envelope.parseFail t
  else Envelope.parseFail t

/-- The value of `data.get("response", data.get("_raw", ""))` in
src/limit_probe.py line 211.  Note that a present key wins even when its
value is JSON null, which Python returns as `None`. -/
def respVal (http_text : String) : JVal :=
  match extract_generate_fields http_text with
  | Envelope.parseFail raw => JVal.str (String.mk raw)
  | Envelope.fields kvs =>
      match dict_get kvs "response" with
      | some v => v
      | none =>
          match dict_get kvs "_raw" with
          | some v => v
          | none => JVal.str ""

/-- The value of `data.get("done_reason", "unknown")` in
src/limit_probe.py line 213. -/
def doneVal (http_text : String) : JVal :=
  match extract_generate_fields http_text with
  | Envelope.parseFail _ => JVal.str "unknown"
  | Envelope.fields kvs =>
      match dict_get kvs "done_reason" with
      | some v => v
      | none => JVal.str "unknown"

/-- Python `s.replace("\n", "\\n")`. -/
def replaceNl : List Char → List Char
  | [] => []
  | '\n' :: r => '\\' :: 'n' :: replaceNl r
  | c :: r => c :: replaceNl r

/-- src/limit_probe.py lines 216-218: strip, escape newlines, and bound
the preview at 220 characters plus an ellipsis. -/
def preview_of (s : String) : String :=
  let p := replaceNl (pyStrip s.data)
  if p.length > 220 then String.mk (p.take 220 ++ ['…']) else String.mk p

/-- The response-dependent fields of `RunResult`
(src/limit_probe.py lines 26-37); the timing and HTTP fields pass through
unchanged and are omitted. -/
structure RunResultLite where
  raw_response_len : Nat
  done_reason : JVal
  outcome : Outcome
  response_preview : String

/-- src/limit_probe.py lines 210-231: the response-processing part of
`run_once`.  When the effective `response` value is not a string (for
example JSON null, which Python hands over as `None`), the call
`resp_text.strip()` inside `classify_outcome` raises `AttributeError`;
this is modelled as `Except.error`. -/
def processResponse (http_text : String) (want_json : Bool) : Except String RunResultLite :=
  match respVal http_text with
  | JVal.str s =>
      let dv := doneVal http_text
      let ds : String :=
        match dv with
        | JVal.str d => d
        | _ => "unknown"
      Except.ok
        { raw_response_len := s.data.length
          done_reason := dv
          outcome := classify_outcome s want_json ds
          response_preview := preview_of s }
  | _ => Except.error "AttributeError: object has no attribute strip"

/-- Observation helper: the classified outcome of one trial on a given
raw HTTP body, or `none` when the trial raised. -/
def trialOutcome (http_text : String) (want_json : Bool) : Option Outcome :=
  match processResponse http_text want_json with
  | Except.ok rr => some rr.outcome
  | Except.error _ => none

/-! ## Search controller and trial logger of the standalone prober
(src/limit_probe.py lines 234-251 and 295-379)

The trial at a candidate length is abstracted as an oracle
`f : Int → Outcome` giving the classified outcome `run_once` would return
at that length, and the wall-clock timestamp of each log write as an
oracle `c : Nat → Nat` indexed by the number of records already written;
the loop observes a trial only through these. -/

/-- src/limit_probe.py line 310: the success predicate of the search. -/
def is_success (outcome : Outcome) : Bool :=
  match outcome with
  | Outcome.OK_JSON => true
  | Outcome.OK_TEXT => true
  | _ => false

/-- One JSONL log record (src/limit_probe.py lines 234-249), restricted to
the fields the search uses: candidate length, outcome, the interval bounds
in effect when the trial was issued, and the timestamp. -/
structure LogRec where
  n_chars : Int
  outcome : Outcome
  search_lo : Int
  search_hi : Int
  ts : Nat
deriving DecidableEq

/-- src/limit_probe.py lines 250-251: append one record to the log. -/
def write_log_line (log : List LogRec) (r : LogRec) : List LogRec := log ++ [r]

/-- Mutable state of the search loop: interval bounds, the best successful
trial so far (`best_ok`, line 315), and the log written so far. -/
structure SearchState where
  lo : Int
  hi : Int
  best_ok : Option LogRec
  log : List LogRec
deriving DecidableEq

/-- Python floor division `(lo + hi) // 2`; for the positive divisor 2,
floor division coincides with `Int.fdiv`. -/
def pymid (lo hi : Int) : Int := Int.fdiv (lo + hi) 2

/-- The record of the trial issued by one loop iteration: candidate length
`mid`, its outcome, and the bounds in effect. -/
def stepRec (f : Int → Outcome) (c : Nat → Nat) (s : SearchState) : LogRec :=
  { n_chars := pymid s.lo s.hi
    outcome := f (pymid s.lo s.hi)
    search_lo := s.lo
    search_hi := s.hi
    ts := c s.log.length }

/-- One iteration of the loop body (src/limit_probe.py lines 318-345):
probe at `mid = (lo + hi) // 2`, log the trial, then on success record it
as the best and set `lo = mid + 1`, otherwise set `hi = mid - 1`. -/
def searchStep (f : Int → Outcome) (c : Nat → Nat) (s : SearchState) : SearchState :=
  if is_success (f (pymid s.lo s.hi)) then
    { lo := pymid s.lo s.hi + 1
      hi := s.hi
      best_ok := some (stepRec f c s)
      log := write_log_line s.log (stepRec f c s) }
  else
    { lo := s.lo
      hi := pymid s.lo s.hi - 1
      best_ok := s.best_ok
      log := write_log_line s.log (stepRec f c s) }

/-- src/limit_probe.py line 317: iterate the loop body while
`hi - lo > tolerance`.  Fuel-indexed; fuel at least `hi - lo` suffices for
a nonnegative tolerance since the width shrinks every iteration. -/
def searchLoop (f : Int → Outcome) (c : Nat → Nat) (tol : Int) : Nat → SearchState → SearchState
  | 0, s => s
  | n + 1, s => if s.hi - s.lo > tol then searchLoop f c tol n (searchStep f c s) else s

/-- src/limit_probe.py lines 295-300: clamp the requested bounds to the
transcript and fail fast (before any HTTP call) when `lo >= hi`. -/
def initState (min_chars max_chars full_len : Int) : Option SearchState :=
  let lo := max 1 (min min_chars full_len)
  let hi := if max_chars = 0 then full_len else min max_chars full_len
  if hi ≤ lo then none else some { lo := lo, hi := hi, best_ok := none, log := [] }

/-- The terminal report of the session (src/limit_probe.py lines 366-379):
a confirmed boundary from the final check, an approximate boundary from an
earlier best success, or no successful size found. -/
inductive Report where
  | boundary (n : Int) : Report
  | approx (n : Int) : Report
  | noSuccess : Report
deriving DecidableEq

/-- The record of the final check (src/limit_probe.py lines 347-364): one
trial at `max(1, min(hi, full_len))`, logged with the bounds left by the
loop. -/
def finalRec (f : Int → Outcome) (c : Nat → Nat) (full_len : Int) (s : SearchState) : LogRec :=
  { n_chars := max 1 (min s.hi full_len)
    outcome := f (max 1 (min s.hi full_len))
    search_lo := s.lo
    search_hi := s.hi
    ts := c s.log.length }

/-- src/limit_probe.py lines 313-379: the whole search after
initialisation — run the loop, run and log the final check, and report.
Returns the final state, the final-check record, and the report. -/
def runProbe (f : Int → Outcome) (c : Nat → Nat) (tol full_len lo0 hi0 : Int) :
    SearchState × LogRec × Report :=
  let s := searchLoop f c tol (hi0 - lo0).toNat { lo := lo0, hi := hi0, best_ok := none, log := [] }
  let r := finalRec f c full_len s
  let rep :=
    if is_success r.outcome then Report.boundary r.n_chars
    else
      match s.best_ok with
      | some b => Report.approx b.n_chars
      | none => Report.noSuccess
  ({ lo := s.lo, hi := s.hi, best_ok := s.best_ok, log := write_log_line s.log r }, r, rep)

/-! ## The production variant (src/limit_probe_prod.py) -/

/-- src/limit_probe_prod.py lines 16-25: strip, reject empty, and accept
exactly the strings `json.loads` accepts. -/
def is_json_object (s : String) : Bool :=
  let t := pyStrip s.data
  if t.isEmpty then false else jsonParses (String.mk t)

/-- Whether a JSON value is falsy in Python (`v or ""` yields `""`). -/
def jvalFalsy : JVal → Bool
  | JVal.null => true
  | JVal.bool b => !b
  | JVal.str s => s.isEmpty
  | JVal.arr xs => xs.isEmpty
  | JVal.obj kvs => kvs.isEmpty
  | JVal.num lit =>
      lit.data.all (fun ch => !('1' ≤ ch && ch ≤ '9')) &&
      !(lit = "NaN" || lit = "Infinity" || lit = "-Infinity")

/-- src/limit_probe_prod.py lines 61-76: decode the envelope with
`r.json()` (raises on bodies that are not JSON) and take
`obj.get("response", "") or ""`.  A non-object envelope raises at
`obj.get`; a truthy non-string `response` raises later at `len(txt)` or
`txt.strip()`. -/
def callBody (body : String) : Except String String :=
  match jsonLoads body with
  | none => Except.error "JSONDecodeError"
  | some (JVal.obj kvs) =>
      match dict_get kvs "response" with
      | none => Except.ok ""
      | some (JVal.str s) => Except.ok s
      | some v => if jvalFalsy v then Except.ok "" else Except.error "TypeError"
  | some _ => Except.error "AttributeError: object has no attribute get"

/-- src/limit_probe_prod.py lines 28-76: `call_ollama` has no exception
handling — `requests.post` raises on network failures and timeouts,
`raise_for_status` raises on statuses in [400, 600), and `r.json()` raises
on unparseable bodies; any of these propagates and aborts the search. -/
def call_ollama (net : NetOutcome) : Except String String :=
  match net with
  | NetOutcome.exc name msg => Except.error (name ++ ": " ++ msg)
  | NetOutcome.ok status body =>
      if 400 ≤ status ∧ status < 600 then Except.error "HTTPError" else callBody body
  | NetOutcome.httpError code body =>
      if 400 ≤ code ∧ code < 600 then Except.error "HTTPError" else callBody body

/-- Controller state of the production variant
(src/limit_probe_prod.py lines 104-108): bounds plus `best`, an integer
initialised to 0 rather than an optional trial. -/
structure ProdState where
  lo : Int
  hi : Int
  best : Int
deriving DecidableEq

/-- One iteration of the production loop body
(src/limit_probe_prod.py lines 165-173), with the per-length success of
`attempt` abstracted as an oracle `okf`. -/
def prodStep (okf : Int → Bool) (p : ProdState) : ProdState :=
  if okf (pymid p.lo p.hi) then
    { lo := pymid p.lo p.hi + 1, hi := p.hi, best := pymid p.lo p.hi }
  else
    { lo := p.lo, hi := pymid p.lo p.hi - 1, best := p.best }

/-- src/limit_probe_prod.py line 164: iterate while `hi - lo > tolerance`. -/
def prodLoop (okf : Int → Bool) (tol : Int) : Nat → ProdState → ProdState
  | 0, p => p
  | n + 1, p => if p.hi - p.lo > tol then prodLoop okf tol n (prodStep okf p) else p

/-- src/limit_probe_prod.py lines 104-186: loop from
`[min_chars, full_len]`, then one final spot check at the full length
(not at the converged `hi`), which on success replaces `best` with
`full_len`.  Returns the final state and the candidate length of the
final trial. -/
def prodRun (okf : Int → Bool) (tol min_chars full_len : Int) : ProdState × Int :=
  let p := prodLoop okf tol (full_len - min_chars).toNat
             { lo := min_chars, hi := full_len, best := 0 }
  (if okf full_len then { lo := p.lo, hi := p.hi, best := full_len } else p, full_len)

/-! ## The parser the specification describes

The specification describes the structured-output check as locating the
first balanced brace-delimited object by a character-by-character scan
that tracks string-literal state, escape sequences and nesting depth.
The following two definitions are modelled from those words (not from the
source) so that the source behaviour can be compared against them. -/

/-- Modelled from the spec: scan character by character from the first
left brace, tracking string-literal state and escapes and counting
nesting depth, and return the first balanced brace-delimited object. -/
def specScanObj : List Char → Bool → Bool → Int → List Char → Option (List Char)
  | [], _, _, _, _ => none
  | ch :: r, inStr, esc, depth, acc =>
      if esc then specScanObj r inStr false depth (ch :: acc)
      else if inStr then
        if ch = '\\' then specScanObj r true true depth (ch :: acc)
        else if ch = '"' then specScanObj r false false depth (ch :: acc)
        else specScanObj r true false depth (ch :: acc)
      else if ch = '"' then specScanObj r true false depth (ch :: acc)
      else if ch = '\x7b' then specScanObj r false false (depth + 1) (ch :: acc)
      else if ch = '\x7d' then
        if depth = 1 then some (ch :: acc).reverse
        else specScanObj r false false (depth - 1) (ch :: acc)
      else specScanObj r false false depth (ch :: acc)

/-- Modelled from the spec: the first balanced brace-delimited object of
the stripped response text, if any. -/
def specFirstBalancedObject (t : String) : Option String :=
  match (pyStrip t.data).dropWhile (fun ch => ch != '\x7b') with
  | [] => none
  | cs => Option.map String.mk (specScanObj cs false false 0 [])

/-- Modelled from the spec: the structured-output check succeeds exactly
when the first balanced brace-delimited object exists and parses. -/
def specStructuredSuccess (t : String) : Bool :=
  match specFirstBalancedObject t with
  | some cand => jsonParses cand
  | none => false

/-! ## Fixed oracles used by concrete witnesses and counterexamples -/

/-- Trial oracle that always returns an empty response. -/
def oracleEmpty : Int → Outcome := fun _ => Outcome.EMPTY

/-- Trial oracle that always succeeds with plain text. -/
def oracleText : Int → Outcome := fun _ => Outcome.OK_TEXT

/-- Clock oracle returning a constant timestamp. -/
def clock0 : Nat → Nat := fun _ => 0

/-- Production success oracle that always fails. -/
def okNever : Int → Bool := fun _ => false

/-- Production success oracle that always succeeds. -/
def okAlways : Int → Bool := fun _ => true

/-! ## Helper lemmas -/

theorem fdiv_two_eq (x : Int) : Int.fdiv x 2 = x / 2 := Int.fdiv_eq_ediv x (by norm_num)

theorem pymid_eq (lo hi : Int) : pymid lo hi = (lo + hi) / 2 := fdiv_two_eq (lo + hi)

theorem listStartsWith_append (p rest : List Char) : listStartsWith p (p ++ rest) = true := by
  induction p with
  | nil => rfl
  | cons a l ih => simpa [listStartsWith] using ih

theorem dropWhile_append_left {p : Char → Bool} {l1 : List Char} (l2 : List Char)
    (h : l1.dropWhile p ≠ []) : (l1 ++ l2).dropWhile p = l1.dropWhile p ++ l2 := by
  induction l1 with
  | nil => exact absurd rfl h
  | cons a l ih =>
      by_cases hp : p a
      · simp only [List.cons_append, List.dropWhile_cons, hp, if_true] at *
        exact ih h
      · simp [List.cons_append, List.dropWhile_cons, hp]

theorem dropWhile_ne_nil {p : Char → Bool} {l : List Char} {c : Char}
    (hc : c ∈ l) (hpc : p c = false) : l.dropWhile p ≠ [] := by
  induction l with
  | nil => cases hc
  | cons a l ih =>
      by_cases hp : p a
      · have : c ∈ l := by
          cases hc with
          | head => rw [hp] at hpc; cases hpc
          | tail _ h => exact h
        simp only [List.dropWhile_cons, hp, if_true]
        exact ih this
      · simp [List.dropWhile_cons, hp]

theorem pyRstrip_append_keep (X Y : List Char) (h : Y.reverse.dropWhile pyIsSpace ≠ []) :
    pyRstrip (X ++ Y) = X ++ pyRstrip Y := by
  unfold pyRstrip
  rw [List.reverse_append, dropWhile_append_left _ h, List.reverse_append, List.reverse_reverse]

theorem marker_strip (name msg : String) :
    listStartsWith "__EXCEPTION__".data
      (pyStrip ("__EXCEPTION__ " ++ name ++ ": " ++ msg).data) = true := by
  have hdata : ("__EXCEPTION__ " ++ name ++ ": " ++ msg).data
      = "__EXCEPTION__ ".data ++ (name.data ++ (": ".data ++ msg.data)) := by
    simp [String.data_append, List.append_assoc]
  have hl : pyLstrip ("__EXCEPTION__ ".data ++ (name.data ++ (": ".data ++ msg.data)))
      = "__EXCEPTION__ ".data ++ (name.data ++ (": ".data ++ msg.data)) := by
    unfold pyLstrip
    have hne : ("__EXCEPTION__ ".data).dropWhile pyIsSpace ≠ [] := by decide
    rw [dropWhile_append_left _ hne]
    norm_num [show ("__EXCEPTION__ ".data).dropWhile pyIsSpace = "__EXCEPTION__ ".data from by decide]
  have hmem : ':' ∈ (": ".data ++ msg.data).reverse := by
    simp [List.mem_reverse]
  have hne2 : ((": ".data ++ msg.data).reverse).dropWhile pyIsSpace ≠ [] :=
    dropWhile_ne_nil hmem (by decide)
  have hr : pyRstrip (("__EXCEPTION__ ".data ++ name.data) ++ (": ".data ++ msg.data))
      = ("__EXCEPTION__ ".data ++ name.data) ++ pyRstrip (": ".data ++ msg.data) :=
    pyRstrip_append_keep _ _ hne2
  unfold pyStrip
  rw [hdata, hl, ← List.append_assoc, hr]
  have hsplit : "__EXCEPTION__ ".data = "__EXCEPTION__".data ++ [' '] := by decide
  rw [hsplit, List.append_assoc, List.append_assoc]
  exact listStartsWith_append _ _

theorem searchStep_log (f : Int → Outcome) (c : Nat → Nat) (s : SearchState) :
    (searchStep f c s).log = write_log_line s.log (stepRec f c s) := by
  unfold searchStep
  split <;> rfl

theorem searchStep_width (f : Int → Outcome) (c : Nat → Nat) (s : SearchState)
    (tol : Int) (htol : 0 ≤ tol) (hg : s.hi - s.lo > tol) :
    2 * ((searchStep f c s).hi - (searchStep f c s).lo + 1) ≤ s.hi - s.lo + 1 ∧
    (searchStep f c s).hi - (searchStep f c s).lo ≤ s.hi - s.lo - 1 := by
  unfold searchStep
  split <;> simp only [] <;> rw [pymid_eq] <;> omega

theorem searchLoop_inv (f : Int → Outcome) (c : Nat → Nat) (tol : Int)
    (P : SearchState → Prop)
    (hstep : ∀ s, s.hi - s.lo > tol → P s → P (searchStep f c s)) :
    ∀ (fuel : Nat) (s : SearchState), P s → P (searchLoop f c tol fuel s)
  | 0, s, hP => hP
  | fuel + 1, s, hP => by
      unfold searchLoop
      split
      · exact searchLoop_inv f c tol P hstep fuel _ (hstep s (by assumption) hP)
      · exact hP

theorem searchLoop_exit (f : Int → Outcome) (c : Nat → Nat) (tol : Int) (htol : 0 ≤ tol) :
    ∀ (fuel : Nat) (s : SearchState), s.hi - s.lo ≤ tol + fuel →
      (searchLoop f c tol fuel s).hi - (searchLoop f c tol fuel s).lo ≤ tol
  | 0, s, h => by simpa [searchLoop] using h
  | fuel + 1, s, h => by
      unfold searchLoop
      split
      · refine searchLoop_exit f c tol htol fuel _ ?_
        have := (searchStep_width f c s tol htol (by assumption)).2
        push_cast at h ⊢
        omega
      · simpa using (by omega : s.hi - s.lo ≤ tol ∨ s.hi - s.lo > tol).resolve_right (by assumption)

theorem searchLoop_log_ext (f : Int → Outcome) (c : Nat → Nat) (tol : Int) :
    ∀ (fuel : Nat) (s : SearchState),
      ∃ t, (searchLoop f c tol fuel s).log = s.log ++ t ∧
        ∀ r ∈ t, r.outcome = f r.n_chars ∧ r.n_chars = pymid r.search_lo r.search_hi
  | 0, s => ⟨[], by simp [searchLoop]⟩
  | fuel + 1, s => by
      unfold searchLoop
      split
      · obtain ⟨t, ht, hr⟩ := searchLoop_log_ext f c tol fuel (searchStep f c s)
        refine ⟨[stepRec f c s] ++ t, ?_, ?_⟩
        · rw [ht, searchStep_log]
          simp [write_log_line]
        · intro r hrmem
          rcases List.mem_append.mp hrmem with h1 | h2
          · rcases List.mem_singleton.mp h1 with rfl
            exact ⟨rfl, rfl⟩
          · exact hr r h2
      · exact ⟨[], by simp⟩

theorem searchLoop_log_len (f : Int → Outcome) (c : Nat → Nat) (tol : Int)
    (fuel : Nat) (s : SearchState) :
    s.log.length ≤ (searchLoop f c tol fuel s).log.length := by
  obtain ⟨t, ht, -⟩ := searchLoop_log_ext f c tol fuel s
  simp [ht]

theorem searchLoop_count (f : Int → Outcome) (c : Nat → Nat) (tol : Int) (htol : 0 ≤ tol) :
    ∀ (fuel : Nat) (s : SearchState),
      ∃ T : Nat, (searchLoop f c tol fuel s).log.length = s.log.length + T ∧
        ∀ T2 : Nat, T = T2 + 1 → (2 : Int) ^ T2 * (tol + 1) ≤ s.hi - s.lo
  | 0, s => ⟨0, by simp [searchLoop], by omega⟩
  | fuel + 1, s => by
      unfold searchLoop
      split
      · obtain ⟨T1, hlen, hbound⟩ := searchLoop_count f c tol htol fuel (searchStep f c s)
        have hsteplen : (searchStep f c s).log.length = s.log.length + 1 := by
          rw [searchStep_log]; simp [write_log_line]
        refine ⟨T1 + 1, by omega, ?_⟩
        intro T2 hT2
        have hT2' : T2 = T1 := by omega
        subst hT2'
        cases T2 with
        | zero =>
            simpa using (by assumption : s.hi - s.lo > tol)
        | succ T0 =>
            have hb := hbound T0 rfl
            have hw := (searchStep_width f c s tol htol (by assumption)).1
            have hpow : (2 : Int) ^ (T0 + 1) * (tol + 1)
                = 2 * ((2 : Int) ^ T0 * (tol + 1)) := by ring
            rw [hpow]
            have h2 : 2 * ((2 : Int) ^ T0 * (tol + 1))
                ≤ 2 * ((searchStep f c s).hi - (searchStep f c s).lo) := by omega
            omega
      · exact ⟨0, by simp, by omega⟩

theorem best_inv (f : Int → Outcome) (c : Nat → Nat) (tol : Int) (fuel : Nat) (s : SearchState)
    (h : (s.best_ok = none → ∀ r ∈ s.log, is_success r.outcome = false) ∧
         (∀ b, s.best_ok = some b →
            is_success b.outcome = true ∧ b ∈ s.log ∧ b.n_chars < s.lo)) :
    ((searchLoop f c tol fuel s).best_ok = none →
        ∀ r ∈ (searchLoop f c tol fuel s).log, is_success r.outcome = false) ∧
    (∀ b, (searchLoop f c tol fuel s).best_ok = some b →
        is_success b.outcome = true ∧ b ∈ (searchLoop f c tol fuel s).log ∧
        b.n_chars < (searchLoop f c tol fuel s).lo) := by
  refine searchLoop_inv f c tol
    (fun u => (u.best_ok = none → ∀ r ∈ u.log, is_success r.outcome = false) ∧
      (∀ b, u.best_ok = some b →
        is_success b.outcome = true ∧ b ∈ u.log ∧ b.n_chars < u.lo))
    ?_ fuel s h
  intro u hg hP
  unfold searchStep
  cases hok : is_success (f (pymid u.lo u.hi)) with
  | false =>
      simp only [hok, Bool.false_eq_true, if_false]
      constructor
      · intro hnone r hr
        rcases List.mem_append.mp hr with h1 | h2
        · exact hP.1 hnone r h1
        · rcases List.mem_singleton.mp h2 with rfl
          simpa [stepRec] using hok
      · intro b hb
        obtain ⟨h1, h2, h3⟩ := hP.2 b hb
        exact ⟨h1, List.mem_append.mpr (Or.inl h2), h3⟩
  | true =>
      simp only [hok, if_true]
      constructor
      · intro hnone
        cases hnone
      · intro b hb
        rcases Option.some.inj hb with rfl
        refine ⟨by simpa [stepRec] using hok, ?_, ?_⟩
        · exact List.mem_append.mpr (Or.inr (List.mem_singleton.mpr rfl))
        · simp [stepRec]

theorem prodStep_best (okf : Int → Bool) (tol : Int) (htol : 0 ≤ tol) (p : ProdState)
    (hg : p.hi - p.lo > tol) (hb : p.best < p.lo) :
    (prodStep okf p).best < (prodStep okf p).lo ∧
    ((prodStep okf p).best ≠ p.best →
      p.best < (prodStep okf p).best ∧ okf ((prodStep okf p).best) = true) := by
  unfold prodStep
  cases hok : okf (pymid p.lo p.hi) with
  | false =>
      simp only [hok, Bool.false_eq_true, if_false]
      exact ⟨hb, fun hne => absurd rfl hne⟩
  | true =>
      simp only [hok, if_true]
      have hmid : p.lo ≤ pymid p.lo p.hi := by
        rw [pymid_eq]; omega
      exact ⟨by omega, fun _ => ⟨by omega, by trivial⟩⟩

theorem prodLoop_best (okf : Int → Bool) (tol : Int) (htol : 0 ≤ tol) :
    ∀ (fuel : Nat) (p : ProdState), p.best < p.lo →
      (prodLoop okf tol fuel p).best < (prodLoop okf tol fuel p).lo
  | 0, p, hb => hb
  | fuel + 1, p, hb => by
      unfold prodLoop
      split
      · exact prodLoop_best okf tol htol fuel _
          (prodStep_best okf tol htol p (by assumption) hb).1
      · exact hb

theorem count_to_clog (tol d : Int) (htol : 0 ≤ tol) (T2 : Nat)
    (h : (2 : Int) ^ T2 * (tol + 1) ≤ d) :
    T2 + 1 ≤ Nat.clog 2 (d.toNat / (max tol 1).toNat) + 1 := by
  have hpow1 : (1 : Int) ≤ (2 : Int) ^ T2 := by
    have := pow_pos (show (0 : Int) < 2 by norm_num) T2
    omega
  have hd1 : tol + 1 ≤ d := by nlinarith
  have hcast : ((2 ^ T2 * (tol.toNat + 1) : Nat) : Int) ≤ ((d.toNat : Nat) : Int) := by
    push_cast
    rw [Int.toNat_of_nonneg (by omega : (0:Int) ≤ tol), Int.toNat_of_nonneg (by omega : (0:Int) ≤ d)]
    exact h
  have hNat : 2 ^ T2 * (tol.toNat + 1) ≤ d.toNat := by exact_mod_cast hcast
  have hM1 : 0 < (max tol 1).toNat := by omega
  have hM2 : (max tol 1).toNat ≤ tol.toNat + 1 := by omega
  have hdiv1 : 2 ^ T2 ≤ d.toNat / (tol.toNat + 1) :=
    (Nat.le_div_iff_mul_le (by omega)).mpr hNat
  have hdiv2 : d.toNat / (tol.toNat + 1) ≤ d.toNat / (max tol 1).toNat :=
    Nat.div_le_div_left hM2 hM1
  have hq : 2 ^ T2 ≤ d.toNat / (max tol 1).toNat := le_trans hdiv1 hdiv2
  have hq0 : d.toNat / (max tol 1).toNat ≠ 0 := by
    have : (1 : Nat) ≤ 2 ^ T2 := Nat.one_le_two_pow
    omega
  have hlog : T2 ≤ Nat.log 2 (d.toNat / (max tol 1).toNat) :=
    (Nat.pow_le_iff_le_log (by norm_num) hq0).mp hq
  have := Nat.log_le_clog 2 (d.toNat / (max tol 1).toNat)
  omega

/-! ## Claims -/

/-- Claim C1 (confirmed): for every interval, tolerance and trial oracle,
the search loop of both prober variants runs exactly while
`hi - lo > tolerance`; each iteration probes one trial at
`mid = floor((lo + hi) / 2)`; when its outcome is a success category the
trial is recorded as the new best success and `lo` becomes `mid + 1`,
otherwise `hi` becomes `mid - 1`. -/
theorem claim_C1_search_loop_step (f : Int → Outcome) (okf : Int → Bool) (c : Nat → Nat)
    (tol : Int) (k : Nat) (s : SearchState) (p : ProdState) :
    (s.hi - s.lo ≤ tol → searchLoop f c tol (k + 1) s = s)
    ∧ (s.hi - s.lo > tol →
        searchLoop f c tol (k + 1) s = searchLoop f c tol k (searchStep f c s))
    ∧ (is_success (f (pymid s.lo s.hi)) = true →
        (searchStep f c s).lo = pymid s.lo s.hi + 1 ∧ (searchStep f c s).hi = s.hi ∧
        (searchStep f c s).best_ok = some (stepRec f c s))
    ∧ (is_success (f (pymid s.lo s.hi)) = false →
        (searchStep f c s).hi = pymid s.lo s.hi - 1 ∧ (searchStep f c s).lo = s.lo ∧
        (searchStep f c s).best_ok = s.best_ok)
    ∧ (p.hi - p.lo ≤ tol → prodLoop okf tol (k + 1) p = p)
    ∧ (p.hi - p.lo > tol →
        prodLoop okf tol (k + 1) p = prodLoop okf tol k (prodStep okf p))
    ∧ (okf (pymid p.lo p.hi) = true →
        prodStep okf p = { lo := pymid p.lo p.hi + 1, hi := p.hi, best := pymid p.lo p.hi })
    ∧ (okf (pymid p.lo p.hi) = false →
        prodStep okf p = { lo := p.lo, hi := pymid p.lo p.hi - 1, best := p.best }) := by
  refine ⟨?_, ?_, ?_, ?_, ?_, ?_, ?_, ?_⟩
  · intro h
    rw [searchLoop, if_neg (by omega)]
  · intro h
    rw [searchLoop, if_pos h]
  · intro h
    unfold searchStep
    rw [if_pos h]
    exact ⟨rfl, rfl, rfl⟩
  · intro h
    unfold searchStep
    rw [if_neg (by simp [h])]
    exact ⟨rfl, rfl, rfl⟩
  · intro h
    rw [prodLoop, if_neg (by omega)]
  · intro h
    rw [prodLoop, if_pos h]
  · intro h
    unfold prodStep
    rw [if_pos h]
  · intro h
    unfold prodStep
    rw [if_neg (by simp [h])]

/-- Concrete witness for claim C1: a successful trial at `mid` moves `lo`
to `mid + 1`, keeps `hi`, and records the trial as the best success. -/
theorem claim_C1_witness :
    (searchStep oracleText clock0 { lo := 1, hi := 10, best_ok := none, log := [] }).lo
        = pymid 1 10 + 1 ∧
    (searchStep oracleText clock0 { lo := 1, hi := 10, best_ok := none, log := [] }).hi = 10 ∧
    (searchStep oracleText clock0 { lo := 1, hi := 10, best_ok := none, log := [] }).best_ok
        = some (stepRec oracleText clock0 { lo := 1, hi := 10, best_ok := none, log := [] }) :=
  (claim_C1_search_loop_step oracleText okAlways clock0 0 0
      { lo := 1, hi := 10, best_ok := none, log := [] }
      { lo := 1, hi := 10, best := 0 }).2.2.1 rfl

/-- Claim C2 (confirmed): the classifier assigns exactly one outcome by a
fixed first-match order — internal exception marker, then empty after
stripping, then the stub heuristic, and only then the structured-parse or
truncation checks; in particular the structured success `OK_JSON` occurs
exactly when all earlier checks failed, structured output was requested
and the parse check passes, so a stub response that contains a parseable
brace-delimited object is classified `STUB`, never `OK_JSON`. -/
theorem claim_C2_classifier_order (t done : String) (wj : Bool) :
    (listStartsWith "__EXCEPTION__".data (pyStrip t.data) = true →
        classify_outcome t wj done = Outcome.ERROR)
    ∧ (listStartsWith "__EXCEPTION__".data (pyStrip t.data) = false →
        pyStrip t.data = [] → classify_outcome t wj done = Outcome.EMPTY)
    ∧ (listStartsWith "__EXCEPTION__".data (pyStrip t.data) = false →
        pyStrip t.data ≠ [] →
        looks_like_stub (String.mk (pyStrip t.data)) = true →
        classify_outcome t wj done = Outcome.STUB)
    ∧ (classify_outcome t wj done = Outcome.OK_JSON ↔
        (listStartsWith "__EXCEPTION__".data (pyStrip t.data) = false ∧
         pyStrip t.data ≠ [] ∧
         looks_like_stub (String.mk (pyStrip t.data)) = false ∧
         wj = true ∧
         try_parse_json_output (String.mk (pyStrip t.data)) = true)) := by
  have hb : ((pyStrip t.data).isEmpty = true) ↔ pyStrip t.data = [] := by
    cases pyStrip t.data <;> simp
  unfold classify_outcome
  refine ⟨?_, ?_, ?_, ?_⟩
  · intro h
    rw [if_pos h]
  · intro h1 h2
    rw [if_neg (by simp [h1]), if_pos (hb.mpr h2)]
  · intro h1 h2 h3
    rw [if_neg (by simp [h1]), if_neg (by simp [hb, h2]), if_pos h3]
  · by_cases hm : listStartsWith "__EXCEPTION__".data (pyStrip t.data) = true
    · simp [hm]
    · by_cases he : pyStrip t.data = []
      · simp [hm, he, hb, Bool.not_eq_true] at *
        simp [hm, he]
      · by_cases hs : looks_like_stub (String.mk (pyStrip t.data)) = true
        · simp [Bool.not_eq_true] at hm
          simp [hm, hb, he, hs]
        · simp [Bool.not_eq_true] at hm hs
          cases wj with
          | false =>
              simp [hm, hb, he, hs]
              by_cases hd : done = "length" <;> simp [hd]
          | true =>
              by_cases hp : try_parse_json_output (String.mk (pyStrip t.data)) = true
              · simp [hm, hb, he, hs, hp]
              · simp [Bool.not_eq_true] at hp
                simp [hm, hb, he, hs, hp]
                by_cases hd : done = "length" <;> simp [hd]

/-- Concrete witness for claim C2: the response text `1. \x7b"a": 1\x7d`
matches the stub heuristic and also contains a parseable brace-delimited
object, and is classified `STUB`. -/
theorem claim_C2_witness :
    classify_outcome "1. \x7b\"a\": 1\x7d" true "stop" = Outcome.STUB ∧
    try_parse_json_output (String.mk (pyStrip "1. \x7b\"a\": 1\x7d".data)) = true :=
  ⟨(claim_C2_classifier_order "1. \x7b\"a\": 1\x7d" "stop" true).2.2.1
      (by decide) (by decide) (by decide),
   by decide⟩

theorem dropWhile_idem (p : Char → Bool) (l : List Char) :
    (l.dropWhile p).dropWhile p = l.dropWhile p := by
  induction l with
  | nil => rfl
  | cons a t ih =>
      by_cases hp : p a
      · simp [List.dropWhile_cons, hp, ih]
      · simp [List.dropWhile_cons, hp]

theorem pyRstrip_idem (l : List Char) : pyRstrip (pyRstrip l) = pyRstrip l := by
  unfold pyRstrip
  rw [List.reverse_reverse, dropWhile_idem]

theorem lstrip_fixed_of_prefix (l : List Char) (h : pyLstrip l = l) :
    ∀ Y : List Char, Y <+: l → pyLstrip Y = Y := by
  intro Y hY
  cases Y with
  | nil => rfl
  | cons a t =>
      obtain ⟨rest, hl⟩ := hY
      by_cases hp : pyIsSpace a
      · exfalso
        have hlen := (List.dropWhile_suffix (l := t ++ rest) pyIsSpace).sublist.length_le
        have : pyLstrip l = List.dropWhile pyIsSpace (t ++ rest) := by
          rw [← hl]
          simp [pyLstrip, List.dropWhile_cons, hp]
        rw [h, ← hl] at this
        have hcontr : (t ++ rest).length + 1 ≤ (t ++ rest).length := by
          calc (t ++ rest).length + 1 = ((a :: t) ++ rest).length := by simp
            _ = (List.dropWhile pyIsSpace (t ++ rest)).length := by rw [this]
            _ ≤ (t ++ rest).length := hlen
        omega
      · simp [pyLstrip, List.dropWhile_cons, hp]

theorem pyStrip_idem (cs : List Char) : pyStrip (pyStrip cs) = pyStrip cs := by
  unfold pyStrip
  have h1 : pyLstrip (pyLstrip cs) = pyLstrip cs := dropWhile_idem _ _
  have hpre : pyRstrip (pyLstrip cs) <+: pyLstrip cs := by
    have := List.reverse_prefix.mpr (List.dropWhile_suffix (l := (pyLstrip cs).reverse) pyIsSpace)
    simpa [pyRstrip] using this
  have h2 : pyLstrip (pyRstrip (pyLstrip cs)) = pyRstrip (pyLstrip cs) :=
    lstrip_fixed_of_prefix _ h1 _ hpre
  rw [h2, pyRstrip_idem]

/-- Counterexample for claim C3: on the response `\x7b"a": 1\x7d \x7d` the
first balanced brace-delimited object is `\x7b"a": 1\x7d`, which parses,
so the scan the specification describes reports a structured success; the
code instead takes its fast path (the text starts with a left brace and
ends with a right brace), feeds the whole text to the JSON parser, fails,
and classifies `BAD_JSON`. -/
theorem claim_C3_counterexample :
    classify_outcome "\x7b\"a\": 1\x7d \x7d" true "stop" = Outcome.BAD_JSON ∧
    specStructuredSuccess "\x7b\"a\": 1\x7d \x7d" = true ∧
    Outcome.BAD_JSON ≠ Outcome.OK_JSON :=
  ⟨by decide, by decide, by decide⟩

/-- Claim C3 (corrected): when structured output is requested and the
response is not classified error, empty or stub, the trial is
`OK_JSON` exactly when `try_parse_json_output` accepts the stripped text,
which holds exactly when either the stripped text both starts with a left
brace and ends with a right brace and parses as JSON in its entirety, or
it does not and the slice from the first left brace through the last
right brace (both present, in that order) parses as JSON.  The code does
not perform the character-by-character balanced scan the specification
describes. -/
theorem claim_C3_amended_parse (t done : String)
    (h1 : listStartsWith "__EXCEPTION__".data (pyStrip t.data) = false)
    (h2 : pyStrip t.data ≠ [])
    (h3 : looks_like_stub (String.mk (pyStrip t.data)) = false) :
    (classify_outcome t true done = Outcome.OK_JSON ↔
        try_parse_json_output (String.mk (pyStrip t.data)) = true)
    ∧ (try_parse_json_output (String.mk (pyStrip t.data)) = true ↔
        ((listStartsWith ['\x7b'] (pyStrip t.data) &&
            listEndsWith ['\x7d'] (pyStrip t.data)) = true ∧
          jsonParses (String.mk (pyStrip t.data)) = true) ∨
        ((listStartsWith ['\x7b'] (pyStrip t.data) &&
            listEndsWith ['\x7d'] (pyStrip t.data)) = false ∧
          pyFind (pyStrip t.data) '\x7b' ≠ -1 ∧
          pyRfind (pyStrip t.data) '\x7d' ≠ -1 ∧
          pyFind (pyStrip t.data) '\x7b' < pyRfind (pyStrip t.data) '\x7d' ∧
          jsonParses (String.mk
            (((pyStrip t.data).drop (pyFind (pyStrip t.data) '\x7b').toNat).take
              ((pyRfind (pyStrip t.data) '\x7d').toNat + 1 -
                (pyFind (pyStrip t.data) '\x7b').toNat))) = true)) := by
  have hb : ((pyStrip t.data).isEmpty = true) ↔ pyStrip t.data = [] := by
    cases pyStrip t.data <;> simp
  constructor
  · unfold classify_outcome
    rw [if_neg (by simp [h1]), if_neg (by simp [hb, h2]), if_neg (by simp [h3]), if_pos rfl]
    by_cases hp : try_parse_json_output (String.mk (pyStrip t.data)) = true
    · simp [hp]
    · simp only [Bool.not_eq_true] at hp
      by_cases hd : done = "length" <;> simp [hp, hd]
  · unfold try_parse_json_output
    simp only [String.data]
    rw [pyStrip_idem]
    by_cases he : (pyStrip t.data).isEmpty = true
    · exact absurd (hb.mp he) h2
    · simp only [Bool.not_eq_true] at he
      rw [if_neg (by simp [he])]
      by_cases hfast : (listStartsWith ['\x7b'] (pyStrip t.data) &&
          listEndsWith ['\x7d'] (pyStrip t.data)) = true
      · simp [hfast]
      · simp only [Bool.not_eq_true] at hfast
        rw [if_neg (by simp [hfast])]
        by_cases hs1 : pyFind (pyStrip t.data) '\x7b' = -1
        · simp [hs1, hfast]
        · by_cases hs2 : pyRfind (pyStrip t.data) '\x7d' = -1
          · simp [hs1, hs2, hfast]
          · by_cases hs3 : pyRfind (pyStrip t.data) '\x7d' ≤ pyFind (pyStrip t.data) '\x7b'
            · simp [hs1, hs2, hs3, hfast]
            · simp [hs1, hs2, hs3, hfast]
              try omega

/-- Concrete witness for claim C3 (amended): the nested-brace example from
the specification, `\x7b"a": "text with \x7b inside"\x7d`, is accepted via
the whole-text fast path and classified `OK_JSON`. -/
theorem claim_C3_witness :
    classify_outcome "\x7b\"a\": \"text with \x7b inside\"\x7d" true "stop" = Outcome.OK_JSON :=
  ((claim_C3_amended_parse "\x7b\"a\": \"text with \x7b inside\"\x7d" "stop"
      (by decide) (by decide) (by decide)).1).mpr (by decide)

/-- Counterexample for claim C6: with tolerance 0 the interval `[1, 2]`
satisfies the loop guard, and one failing trial at `mid = 1` sets
`hi = 0 < 1 = lo`, so `lo <= hi` does not hold at every point of the
search. -/
theorem claim_C6_counterexample :
    ({ lo := 1, hi := 2, best_ok := none, log := [] } : SearchState).hi -
      ({ lo := 1, hi := 2, best_ok := none, log := [] } : SearchState).lo > 0 ∧
    searchLoop oracleEmpty clock0 0 1 { lo := 1, hi := 2, best_ok := none, log := [] }
      = searchStep oracleEmpty clock0 { lo := 1, hi := 2, best_ok := none, log := [] } ∧
    (searchStep oracleEmpty clock0 { lo := 1, hi := 2, best_ok := none, log := [] }).hi
      < (searchStep oracleEmpty clock0 { lo := 1, hi := 2, best_ok := none, log := [] }).lo :=
  ⟨by decide, by decide, by decide⟩

/-- Claim C6 (amended): provided the configuration passes the fail-fast
check, `lo <= hi + 1` holds at every point during the search for every
nonnegative tolerance, and `lo <= hi` holds at every point whenever the
tolerance is at least 1 (with tolerance 0 a final failing trial on an
interval of width 1 leaves `lo = hi + 1`); the loop iterates exactly while
`hi - lo > tolerance`, and with sufficient fuel it stops in a state with
`hi - lo <= tolerance`. -/
theorem claim_C6_amended_invariant (f : Int → Outcome) (c : Nat → Nat)
    (tol mc xc fl : Int) (s0 : SearchState)
    (hinit : initState mc xc fl = some s0) :
    (1 ≤ tol → ∀ k : Nat,
        (searchLoop f c tol k s0).lo ≤ (searchLoop f c tol k s0).hi)
    ∧ (0 ≤ tol → ∀ k : Nat,
        (searchLoop f c tol k s0).lo ≤ (searchLoop f c tol k s0).hi + 1)
    ∧ (∀ (k : Nat) (s : SearchState), searchLoop f c tol (k + 1) s = s ↔ s.hi - s.lo ≤ tol)
    ∧ (0 ≤ tol → ∀ fuel : Nat, s0.hi - s0.lo ≤ tol + fuel →
        (searchLoop f c tol fuel s0).hi - (searchLoop f c tol fuel s0).lo ≤ tol) := by
  have hlt : s0.lo < s0.hi := by
    simp only [initState] at hinit
    set hiv := if xc = 0 then fl else min xc fl with hhiv
    split at hinit
    · cases hinit
    · rcases Option.some.inj hinit with rfl
      show max 1 (min mc fl) < hiv
      omega
  refine ⟨?_, ?_, ?_, fun ht fuel hf => searchLoop_exit f c tol ht fuel s0 hf⟩
  · intro ht k
    refine searchLoop_inv f c tol (fun u => u.lo ≤ u.hi) ?_ k s0 (le_of_lt hlt)
    intro u hg hP
    unfold searchStep
    split <;> simp only [] <;> rw [pymid_eq] <;> omega
  · intro ht k
    refine searchLoop_inv f c tol (fun u => u.lo ≤ u.hi + 1) ?_ k s0 (by omega)
    intro u hg hP
    unfold searchStep
    split <;> simp only [] <;> rw [pymid_eq] <;> omega
  · intro k s
    constructor
    · intro heq
      by_contra hgt
      push_neg at hgt
      have hguard : s.hi - s.lo > tol := hgt
      rw [searchLoop, if_pos hguard] at heq
      have h1 : (searchStep f c s).log.length
          ≤ (searchLoop f c tol k (searchStep f c s)).log.length :=
        searchLoop_log_len f c tol k (searchStep f c s)
      have h2 : (searchStep f c s).log.length = s.log.length + 1 := by
        rw [searchStep_log]
        simp [write_log_line]
      rw [heq] at h1
      omega
    · intro hle
      rw [searchLoop, if_neg (by omega)]

/-- Concrete witness for claim C6 (amended): from the initial state of a
session with `min_chars = 2`, `max_chars = 0` and a transcript of length
10, with tolerance 1, the invariant `lo <= hi` holds after three
iterations. -/
theorem claim_C6_witness :
    (searchLoop oracleEmpty clock0 1 3
        { lo := 2, hi := 10, best_ok := none, log := [] }).lo ≤
      (searchLoop oracleEmpty clock0 1 3
        { lo := 2, hi := 10, best_ok := none, log := [] }).hi :=
  (claim_C6_amended_invariant oracleEmpty clock0 1 2 0 10
      { lo := 2, hi := 10, best_ok := none, log := [] } (by decide)).1 (by norm_num) 3

/-- Claim C7 (confirmed): for a nonnegative tolerance and `lo < hi`, the
search loop performs at most `clog2((hi - lo) / max(tolerance, 1)) + 1`
trials (counted as log records), and the whole session performs at most
that many plus the one final check. -/
theorem claim_C7_trial_bound (f : Int → Outcome) (c : Nat → Nat) (tol fl lo0 hi0 : Int)
    (htol : 0 ≤ tol) (hlt : lo0 < hi0) :
    (searchLoop f c tol (hi0 - lo0).toNat
        { lo := lo0, hi := hi0, best_ok := none, log := [] }).log.length
      ≤ Nat.clog 2 ((hi0 - lo0).toNat / (max tol 1).toNat) + 1
    ∧ (runProbe f c tol fl lo0 hi0).1.log.length
      ≤ (Nat.clog 2 ((hi0 - lo0).toNat / (max tol 1).toNat) + 1) + 1 := by
  obtain ⟨T, hlen, hbound⟩ := searchLoop_count f c tol htol (hi0 - lo0).toNat
    { lo := lo0, hi := hi0, best_ok := none, log := [] }
  have hT : (searchLoop f c tol (hi0 - lo0).toNat
      { lo := lo0, hi := hi0, best_ok := none, log := [] }).log.length = T := by
    simpa using hlen
  have hmain : T ≤ Nat.clog 2 ((hi0 - lo0).toNat / (max tol 1).toNat) + 1 := by
    cases T with
    | zero => omega
    | succ T2 =>
        have hb := hbound T2 rfl
        have := count_to_clog tol (hi0 - lo0) htol T2 (by simpa using hb)
        omega
  have hrp : (runProbe f c tol fl lo0 hi0).1.log.length
      = (searchLoop f c tol (hi0 - lo0).toNat
          { lo := lo0, hi := hi0, best_ok := none, log := [] }).log.length + 1 := by
    simp [runProbe, write_log_line]
  omega

/-- Concrete witness for claim C7: searching `[1, 9]` with tolerance 0
performs at most `clog2(8) + 1` loop trials plus the final check. -/
theorem claim_C7_witness :
    (searchLoop oracleEmpty clock0 0 ((9 : Int) - 1).toNat
        { lo := 1, hi := 9, best_ok := none, log := [] }).log.length
      ≤ Nat.clog 2 (((9 : Int) - 1).toNat / (max (0 : Int) 1).toNat) + 1
    ∧ (runProbe oracleEmpty clock0 0 9 1 9).1.log.length
      ≤ (Nat.clog 2 (((9 : Int) - 1).toNat / (max (0 : Int) 1).toNat) + 1) + 1 :=
  claim_C7_trial_bound oracleEmpty clock0 0 9 1 9 (by norm_num) (by norm_num)

/-- Claim C8 (confirmed): during the search (nonnegative tolerance), a set
best-success trial is only ever replaced by a later trial with a strictly
larger candidate length and a success outcome; likewise in the production
variant, where `best` starts at 0 and stays below `lo`. -/
theorem claim_C8_best_monotone (f : Int → Outcome) (okf : Int → Bool) (c : Nat → Nat)
    (tol lo0 hi0 : Int) (htol : 0 ≤ tol) (k : Nat) (b b2 : LogRec) (p : ProdState) :
    ((searchLoop f c tol k { lo := lo0, hi := hi0, best_ok := none, log := [] }).best_ok
          = some b →
      (searchLoop f c tol k { lo := lo0, hi := hi0, best_ok := none, log := [] }).hi -
        (searchLoop f c tol k { lo := lo0, hi := hi0, best_ok := none, log := [] }).lo > tol →
      (searchStep f c
          (searchLoop f c tol k { lo := lo0, hi := hi0, best_ok := none, log := [] })).best_ok
          = some b2 →
      b2 ≠ b →
      b.n_chars < b2.n_chars ∧ is_success b2.outcome = true)
    ∧ (p.best < p.lo → p.hi - p.lo > tol →
        (prodStep okf p).best < (prodStep okf p).lo ∧
        ((prodStep okf p).best ≠ p.best →
          p.best < (prodStep okf p).best ∧ okf ((prodStep okf p).best) = true)) := by
  constructor
  · intro hb hg hb2 hne
    have hinv := best_inv f c tol k { lo := lo0, hi := hi0, best_ok := none, log := [] }
      ⟨(by intro _ r hr; cases hr), (by intro bb hbb; cases hbb)⟩
    have hblo := (hinv.2 b hb).2.2
    revert hb2
    unfold searchStep
    cases hok : is_success (f (pymid
        (searchLoop f c tol k { lo := lo0, hi := hi0, best_ok := none, log := [] }).lo
        (searchLoop f c tol k { lo := lo0, hi := hi0, best_ok := none, log := [] }).hi)) with
    | false =>
        simp only [Bool.false_eq_true, if_false]
        intro hb2
        rw [hb] at hb2
        exact absurd (Option.some.inj hb2).symm hne
    | true =>
        simp only [if_true]
        intro hb2
        rcases Option.some.inj hb2 with rfl
        refine ⟨?_, by simpa [stepRec] using hok⟩
        have hmid : (searchLoop f c tol k
              { lo := lo0, hi := hi0, best_ok := none, log := [] }).lo ≤
            pymid (searchLoop f c tol k
              { lo := lo0, hi := hi0, best_ok := none, log := [] }).lo
              (searchLoop f c tol k
              { lo := lo0, hi := hi0, best_ok := none, log := [] }).hi := by
          rw [pymid_eq]
          omega
        simp only [stepRec]
        omega
  · intro hb hg
    exact prodStep_best okf tol htol p hg hb

/-- Concrete witness for claim C8: in the production variant at state
`(lo, hi, best) = (5, 9, 3)` with an always-succeeding oracle, the step
replaces `best` with the strictly larger successful length 7 and keeps
`best < lo`. -/
theorem claim_C8_witness :
    (prodStep okAlways { lo := 5, hi := 9, best := 3 }).best
        < (prodStep okAlways { lo := 5, hi := 9, best := 3 }).lo ∧
    ((prodStep okAlways { lo := 5, hi := 9, best := 3 }).best ≠ 3 →
      (3 : Int) < (prodStep okAlways { lo := 5, hi := 9, best := 3 }).best ∧
      okAlways (prodStep okAlways { lo := 5, hi := 9, best := 3 }).best = true) :=
  (claim_C8_best_monotone oracleEmpty okAlways clock0 0 1 9 (by norm_num) 0
      { n_chars := 0, outcome := Outcome.EMPTY, search_lo := 0, search_hi := 0, ts := 0 }
      { n_chars := 0, outcome := Outcome.EMPTY, search_lo := 0, search_hi := 0, ts := 0 }
      { lo := 5, hi := 9, best := 3 }).2 (by norm_num) (by norm_num)

/-- Claim C9 (confirmed): every loop iteration appends exactly one record
to the log, carrying the trial fields, a timestamp, and the interval
bounds in effect when the trial was issued; the loop only ever extends
the existing log (every appended record has the outcome of the trial at
its candidate length, which is the midpoint of its recorded bounds); and
the session log is the loop log plus exactly one final-check record. -/
theorem claim_C9_log_append (f : Int → Outcome) (c : Nat → Nat) (tol fl lo0 hi0 : Int)
    (s : SearchState) (fuel : Nat) :
    ((searchStep f c s).log = write_log_line s.log (stepRec f c s))
    ∧ (write_log_line s.log (stepRec f c s) = s.log ++ [stepRec f c s])
    ∧ (∃ t, (searchLoop f c tol fuel s).log = s.log ++ t ∧
        ∀ r ∈ t, r.outcome = f r.n_chars ∧ r.n_chars = pymid r.search_lo r.search_hi)
    ∧ ((runProbe f c tol fl lo0 hi0).1.log
        = (searchLoop f c tol (hi0 - lo0).toNat
            { lo := lo0, hi := hi0, best_ok := none, log := [] }).log
          ++ [(runProbe f c tol fl lo0 hi0).2.1]) :=
  ⟨searchStep_log f c s, rfl, searchLoop_log_ext f c tol fuel s,
    by simp [runProbe, write_log_line]⟩

/-- Concrete witness for claim C9: one step from the initial state of a
`[1, 9]` search appends exactly its trial record to the empty log. -/
theorem claim_C9_witness :
    (searchStep oracleEmpty clock0 { lo := 1, hi := 9, best_ok := none, log := [] }).log
      = write_log_line []
          (stepRec oracleEmpty clock0 { lo := 1, hi := 9, best_ok := none, log := [] }) :=
  (claim_C9_log_append oracleEmpty clock0 0 9 1 9
      { lo := 1, hi := 9, best_ok := none, log := [] } 0).1

/-- Counterexample for claim C4: in the production variant, searching
`[2, 10]` with tolerance 0 and an always-failing oracle converges to
`hi = 2`, yet the final trial runs at the full length 10, not at
`max(1, min(hi, full_length)) = 2`; and since no trial ever succeeded the
reported best is 0 rather than a distinct no-success report. -/
theorem claim_C4_counterexample :
    (prodRun okNever 0 2 10).2 = 10 ∧
    max 1 (min (prodLoop okNever 0 ((10 : Int) - 2).toNat
        { lo := 2, hi := 10, best := 0 }).hi 10) = 2 ∧
    (10 : Int) ≠ 2 ∧
    (prodRun okNever 0 2 10).1.best = 0 :=
  ⟨by decide, by decide, by decide, by decide⟩

/-- Claim C4 (amended): in the standalone prober, after the loop exactly
one additional trial runs at `max(1, min(hi, full_length))`; if it
succeeds its length is reported as the boundary, superseding any earlier
best success; if it fails and an earlier best success exists, that length
is reported as approximate; and the report is no-successful-size exactly
when no trial of the whole run, final check included, had a success
outcome — in particular when every trial returns an empty response.  In
the production variant the final trial runs at the full transcript length
instead, a success there replaces `best` with the full length, and a
failure keeps the loop best, which is 0 when no trial ever succeeded. -/
theorem claim_C4_amended_final_check (f : Int → Outcome) (okf : Int → Bool) (c : Nat → Nat)
    (tol fl lo0 hi0 mc : Int) :
    ((runProbe f c tol fl lo0 hi0).2.1.n_chars
        = max 1 (min (searchLoop f c tol (hi0 - lo0).toNat
            { lo := lo0, hi := hi0, best_ok := none, log := [] }).hi fl))
    ∧ ((runProbe f c tol fl lo0 hi0).2.1.outcome
        = f ((runProbe f c tol fl lo0 hi0).2.1.n_chars))
    ∧ (is_success (runProbe f c tol fl lo0 hi0).2.1.outcome = true →
        (runProbe f c tol fl lo0 hi0).2.2
          = Report.boundary ((runProbe f c tol fl lo0 hi0).2.1.n_chars))
    ∧ (is_success (runProbe f c tol fl lo0 hi0).2.1.outcome = false →
        ∀ bb, (searchLoop f c tol (hi0 - lo0).toNat
            { lo := lo0, hi := hi0, best_ok := none, log := [] }).best_ok = some bb →
          (runProbe f c tol fl lo0 hi0).2.2 = Report.approx bb.n_chars)
    ∧ (is_success (runProbe f c tol fl lo0 hi0).2.1.outcome = false →
        (searchLoop f c tol (hi0 - lo0).toNat
            { lo := lo0, hi := hi0, best_ok := none, log := [] }).best_ok = none →
          (runProbe f c tol fl lo0 hi0).2.2 = Report.noSuccess)
    ∧ ((runProbe f c tol fl lo0 hi0).2.2 = Report.noSuccess ↔
        ∀ r ∈ (runProbe f c tol fl lo0 hi0).1.log, is_success r.outcome = false)
    ∧ ((∀ n, f n = Outcome.EMPTY) → (runProbe f c tol fl lo0 hi0).2.2 = Report.noSuccess)
    ∧ ((prodRun okf tol mc fl).2 = fl)
    ∧ (okf fl = true → (prodRun okf tol mc fl).1.best = fl)
    ∧ (okf fl = false → (prodRun okf tol mc fl).1.best
        = (prodLoop okf tol (fl - mc).toNat { lo := mc, hi := fl, best := 0 }).best) := by
  have hfr : (runProbe f c tol fl lo0 hi0).2.1
      = finalRec f c fl (searchLoop f c tol (hi0 - lo0).toNat
          { lo := lo0, hi := hi0, best_ok := none, log := [] }) := by
    simp [runProbe]
  have hlog : (runProbe f c tol fl lo0 hi0).1.log
      = (searchLoop f c tol (hi0 - lo0).toNat
          { lo := lo0, hi := hi0, best_ok := none, log := [] }).log
        ++ [finalRec f c fl (searchLoop f c tol (hi0 - lo0).toNat
          { lo := lo0, hi := hi0, best_ok := none, log := [] })] := by
    simp [runProbe, write_log_line]
  have hinv := best_inv f c tol (hi0 - lo0).toNat
    { lo := lo0, hi := hi0, best_ok := none, log := [] }
    ⟨(by intro _ r hr; cases hr), (by intro bb hbb; cases hbb)⟩
  have hext := searchLoop_log_ext f c tol (hi0 - lo0).toNat
    { lo := lo0, hi := hi0, best_ok := none, log := [] }
  have hrep : ∀ h : is_success (finalRec f c fl (searchLoop f c tol (hi0 - lo0).toNat
      { lo := lo0, hi := hi0, best_ok := none, log := [] })).outcome = false,
      (runProbe f c tol fl lo0 hi0).2.2
        = match (searchLoop f c tol (hi0 - lo0).toNat
            { lo := lo0, hi := hi0, best_ok := none, log := [] }).best_ok with
          | some bb => Report.approx bb.n_chars
          | none => Report.noSuccess := by
    intro h
    simp only [runProbe]
    rw [if_neg (by simp [finalRec] at h ⊢; simp [h])]
  have hrepT : ∀ h : is_success (finalRec f c fl (searchLoop f c tol (hi0 - lo0).toNat
      { lo := lo0, hi := hi0, best_ok := none, log := [] })).outcome = true,
      (runProbe f c tol fl lo0 hi0).2.2
        = Report.boundary ((runProbe f c tol fl lo0 hi0).2.1.n_chars) := by
    intro h
    rw [hfr]
    simp only [runProbe]
    rw [if_pos (by simp [finalRec] at h ⊢; simp [h])]
  refine ⟨by simp [runProbe, finalRec], by rw [hfr]; simp [finalRec], ?_, ?_, ?_, ?_, ?_,
    by simp [prodRun], ?_, ?_⟩
  · intro h
    exact hrepT (by rw [hfr] at h; exact h)
  · intro h bb hbb
    rw [hrep (by rw [hfr] at h; exact h), hbb]
  · intro h hnone
    rw [hrep (by rw [hfr] at h; exact h), hnone]
  · constructor
    · intro hns r hr
      have hfinal : is_success (finalRec f c fl (searchLoop f c tol (hi0 - lo0).toNat
          { lo := lo0, hi := hi0, best_ok := none, log := [] })).outcome = false := by
        by_contra hcon
        simp only [Bool.not_eq_false] at hcon
        rw [hrepT hcon] at hns
        cases hns
      have hnone : (searchLoop f c tol (hi0 - lo0).toNat
          { lo := lo0, hi := hi0, best_ok := none, log := [] }).best_ok = none := by
        rw [hrep hfinal] at hns
        cases hcase : (searchLoop f c tol (hi0 - lo0).toNat
            { lo := lo0, hi := hi0, best_ok := none, log := [] }).best_ok with
        | none => rfl
        | some bb => rw [hcase] at hns; cases hns
      rw [hlog] at hr
      rcases List.mem_append.mp hr with h1 | h2
      · exact hinv.1 hnone r h1
      · rcases List.mem_singleton.mp h2 with rfl
        exact hfinal
    · intro hall
      have hfinal : is_success (finalRec f c fl (searchLoop f c tol (hi0 - lo0).toNat
          { lo := lo0, hi := hi0, best_ok := none, log := [] })).outcome = false := by
        refine hall _ ?_
        rw [hlog]
        exact List.mem_append.mpr (Or.inr (List.mem_singleton.mpr rfl))
      have hnone : (searchLoop f c tol (hi0 - lo0).toNat
          { lo := lo0, hi := hi0, best_ok := none, log := [] }).best_ok = none := by
        cases hcase : (searchLoop f c tol (hi0 - lo0).toNat
            { lo := lo0, hi := hi0, best_ok := none, log := [] }).best_ok with
        | none => rfl
        | some bb =>
            exfalso
            obtain ⟨hs, hmem, -⟩ := hinv.2 bb hcase
            have : is_success bb.outcome = false := by
              refine hall bb ?_
              rw [hlog]
              exact List.mem_append.mpr (Or.inl hmem)
            rw [hs] at this
            cases this
      rw [hrep hfinal, hnone]
  · intro hEmpty
    have hfinal : is_success (finalRec f c fl (searchLoop f c tol (hi0 - lo0).toNat
        { lo := lo0, hi := hi0, best_ok := none, log := [] })).outcome = false := by
      simp [finalRec, hEmpty, is_success]
    have hnone : (searchLoop f c tol (hi0 - lo0).toNat
        { lo := lo0, hi := hi0, best_ok := none, log := [] }).best_ok = none := by
      cases hcase : (searchLoop f c tol (hi0 - lo0).toNat
          { lo := lo0, hi := hi0, best_ok := none, log := [] }).best_ok with
      | none => rfl
      | some bb =>
          exfalso
          obtain ⟨hs, hmem, -⟩ := hinv.2 bb hcase
          obtain ⟨t, ht, hprop⟩ := hext
          rw [ht] at hmem
          have hout := (hprop bb (by simpa using hmem)).1
          rw [hEmpty bb.n_chars] at hout
          rw [hout] at hs
          cases hs
    rw [hrep hfinal, hnone]
  · intro h
    simp [prodRun, h]
  · intro h
    simp [prodRun, h]

/-- Concrete witness for claim C4 (amended): when every trial of a
`[1, 9]` search returns an empty response, the terminal report is
no-successful-size. -/
theorem claim_C4_witness :
    (runProbe oracleEmpty clock0 0 9 1 9).2.2 = Report.noSuccess :=
  (claim_C4_amended_final_check oracleEmpty okNever clock0 0 9 1 9 2).2.2.2.2.2.2.1
    (fun _ => rfl)

/-- Counterexample for claim C5: a non-2xx response (status 500, body
`Internal Server Error`) is not classified as the error outcome — in text
mode it is classified `OK_TEXT`, a success, so the search would move the
interval upward; and in the production variant a timeout exception
propagates out of `call_ollama` and terminates the search. -/
theorem claim_C5_counterexample :
    post_ollama (NetOutcome.httpError 500 "Internal Server Error")
        = (500, "Internal Server Error") ∧
    trialOutcome "Internal Server Error" false = some Outcome.OK_TEXT ∧
    is_success Outcome.OK_TEXT = true ∧
    Outcome.OK_TEXT ≠ Outcome.ERROR ∧
    call_ollama (NetOutcome.exc "ConnectTimeout" "timed out")
        = Except.error "ConnectTimeout: timed out" :=
  ⟨rfl, by decide, rfl, by decide, rfl⟩

/-- Stripping on the left keeps a list that starts with a non-space
character unchanged. -/
theorem pyLstrip_cons_nospace (a : Char) (l : List Char) (h : pyIsSpace a = false) :
    pyLstrip (a :: l) = a :: l := by
  simp [pyLstrip, List.dropWhile_cons, h]

/-- Claim C5 (amended): in the standalone prober an exception raised by
the HTTP call (network failure, timeout) is converted into a synthetic
`__EXCEPTION__` marker string; the resulting trial does not raise, is
classified `ERROR`, and, being a non-success, narrows the interval
downward.  Non-2xx bodies and unparseable envelope bodies are instead
forwarded as raw text and classified by content (see the counterexample).
In the production variant, exceptions from the HTTP call propagate,
statuses in [400, 600) raise in `raise_for_status`, and bodies that do
not parse raise in `r.json()`; each aborts the search. -/
theorem claim_C5_amended_error_handling (name msg : String) (wj : Bool) (st : Int)
    (body : String) (f : Int → Outcome) (c : Nat → Nat) (s : SearchState) :
    (∃ rr, processResponse (post_ollama (NetOutcome.exc name msg)).2 wj = Except.ok rr ∧
        rr.outcome = Outcome.ERROR)
    ∧ is_success Outcome.ERROR = false
    ∧ (is_success (f (pymid s.lo s.hi)) = false →
        (searchStep f c s).hi = pymid s.lo s.hi - 1 ∧ (searchStep f c s).lo = s.lo)
    ∧ call_ollama (NetOutcome.exc name msg) = Except.error (name ++ ": " ++ msg)
    ∧ (400 ≤ st → st < 600 → call_ollama (NetOutcome.ok st body) = Except.error "HTTPError")
    ∧ (jsonLoads body = none → ¬(400 ≤ st ∧ st < 600) →
        call_ollama (NetOutcome.ok st body) = Except.error "JSONDecodeError") := by
  have hdata : ("__EXCEPTION__ " ++ name ++ ": " ++ msg).data
      = '_' :: ('_' :: ('E' :: ('X' :: ('C' :: ('E' :: ('P' :: ('T' :: ('I' :: ('O' ::
          ('N' :: ('_' :: ('_' :: (' ' :: (name.data ++ ':' :: ' ' :: msg.data)))))))))))))) := by
    simp [String.data_append]
  have hstart : listStartsWith ['\x7b']
      (pyLstrip ("__EXCEPTION__ " ++ name ++ ": " ++ msg).data) = false := by
    rw [hdata, pyLstrip_cons_nospace _ _ (by decide)]
    simp [listStartsWith]
  have hcond : ¬(listStartsWith ['\x7b']
      (pyLstrip ("__EXCEPTION__ " ++ name ++ ": " ++ msg).data) = true) := by
    intro hcon
    rw [hstart] at hcon
    simp at hcon
  have henv : extract_generate_fields ("__EXCEPTION__ " ++ name ++ ": " ++ msg)
      = Envelope.parseFail (pyLstrip ("__EXCEPTION__ " ++ name ++ ": " ++ msg).data) := by
    simp only [extract_generate_fields]
    rw [if_neg hcond]
  have hresp : respVal ("__EXCEPTION__ " ++ name ++ ": " ++ msg)
      = JVal.str (String.mk (pyLstrip ("__EXCEPTION__ " ++ name ++ ": " ++ msg).data)) := by
    unfold respVal
    rw [henv]
  have hdone : doneVal ("__EXCEPTION__ " ++ name ++ ": " ++ msg) = JVal.str "unknown" := by
    unfold doneVal
    rw [henv]
  have hstrip : pyStrip (pyLstrip ("__EXCEPTION__ " ++ name ++ ": " ++ msg).data)
      = pyStrip ("__EXCEPTION__ " ++ name ++ ": " ++ msg).data := by
    unfold pyStrip pyLstrip
    rw [dropWhile_idem]
  have hclass : classify_outcome
      (String.mk (pyLstrip ("__EXCEPTION__ " ++ name ++ ": " ++ msg).data)) wj "unknown"
      = Outcome.ERROR := by
    unfold classify_outcome
    rw [if_pos ?hmark]
    case hmark =>
      show listStartsWith "__EXCEPTION__".data
        (pyStrip (pyLstrip ("__EXCEPTION__ " ++ name ++ ": " ++ msg).data)) = true
      rw [hstrip]
      exact marker_strip name msg
  have hpr : processResponse ("__EXCEPTION__ " ++ name ++ ": " ++ msg) wj
      = Except.ok
          { raw_response_len :=
              (String.mk (pyLstrip ("__EXCEPTION__ " ++ name ++ ": " ++ msg).data)).data.length
            done_reason := JVal.str "unknown"
            outcome := classify_outcome
              (String.mk (pyLstrip ("__EXCEPTION__ " ++ name ++ ": " ++ msg).data)) wj "unknown"
            response_preview :=
              preview_of (String.mk (pyLstrip ("__EXCEPTION__ " ++ name ++ ": " ++ msg).data)) } := by
    unfold processResponse
    rw [hresp, hdone]
  refine ⟨⟨_, hpr, hclass⟩, rfl, ?_, rfl, ?_, ?_⟩
  · intro h
    unfold searchStep
    rw [if_neg (by simp [h])]
    exact ⟨rfl, rfl⟩
  · intro h1 h2
    unfold call_ollama
    dsimp only
    rw [if_pos ⟨h1, h2⟩]
  · intro hjson hst
    unfold call_ollama
    dsimp only
    rw [if_neg hst]
    unfold callBody
    rw [hjson]

/-- Concrete witness for claim C5 (amended): a timeout exception becomes
the marker string and its trial is classified `ERROR` without raising. -/
theorem claim_C5_witness :
    ∃ rr, processResponse (post_ollama (NetOutcome.exc "URLError" "timed out")).2 false
        = Except.ok rr ∧ rr.outcome = Outcome.ERROR :=
  (claim_C5_amended_error_handling "URLError" "timed out" false 200 "x" oracleEmpty clock0
      { lo := 1, hi := 9, best_ok := none, log := [] }).1

/-- Counterexample for claim C10: on the envelope
`\x7b"response": null\x7d` the effective response value is JSON null,
Python `None`, and the trial raises `AttributeError` at `resp_text.strip()`
inside the classifier instead of returning a `RunResult`. -/
theorem claim_C10_counterexample :
    respVal "\x7b\"response\": null\x7d" = JVal.null ∧
    processResponse "\x7b\"response\": null\x7d" false
      = Except.error "AttributeError: object has no attribute strip" :=
  ⟨rfl, rfl⟩

/-- Claim C10 (amended): a single trial returns a structured `RunResult`
for every body whose effective response value is a string — in particular
for every body that does not even look like a JSON object, such as
arbitrary bytes — and raises exactly when the effective response value is
not a string (for example JSON null). -/
theorem claim_C10_amended_total (body : String) (wj : Bool) :
    (∀ s, respVal body = JVal.str s →
        processResponse body wj = Except.ok
          { raw_response_len := s.data.length
            done_reason := doneVal body
            outcome := classify_outcome s wj
              (match doneVal body with | JVal.str d => d | _ => "unknown")
            response_preview := preview_of s })
    ∧ ((∀ s, respVal body ≠ JVal.str s) →
        processResponse body wj = Except.error "AttributeError: object has no attribute strip")
    ∧ (listStartsWith ['\x7b'] (pyLstrip body.data) = false →
        ∃ rr, processResponse body wj = Except.ok rr) := by
  have main : ∀ s, respVal body = JVal.str s →
      processResponse body wj = Except.ok
        { raw_response_len := s.data.length
          done_reason := doneVal body
          outcome := classify_outcome s wj
            (match doneVal body with | JVal.str d => d | _ => "unknown")
          response_preview := preview_of s } := by
    intro s h
    unfold processResponse
    rw [h]
  refine ⟨main, ?_, ?_⟩
  · intro h
    unfold processResponse
    cases hv : respVal body with
    | null => rfl
    | bool b => rfl
    | num lit => rfl
    | str s => exact absurd hv (h s)
    | arr xs => rfl
    | obj kvs => rfl
  · intro h
    have henv : extract_generate_fields body = Envelope.parseFail (pyLstrip body.data) := by
      simp only [extract_generate_fields]
      rw [if_neg ?hc]
      case hc =>
        intro hcon
        rw [h] at hcon
        simp at hcon
    have hresp : respVal body = JVal.str (String.mk (pyLstrip body.data)) := by
      unfold respVal
      rw [henv]
    exact ⟨_, main _ hresp⟩

/-- Concrete witness for claim C10 (amended): on the envelope
`\x7b"response": "hello"\x7d` the trial returns a `RunResult`. -/
theorem claim_C10_witness :
    processResponse "\x7b\"response\": \"hello\"\x7d" false
      = Except.ok
          { raw_response_len := "hello".data.length
            done_reason := doneVal "\x7b\"response\": \"hello\"\x7d"
            outcome := classify_outcome "hello" false
              (match doneVal "\x7b\"response\": \"hello\"\x7d" with
                | JVal.str d => d
                | _ => "unknown")
            response_preview := preview_of "hello" } :=
  (claim_C10_amended_total "\x7b\"response\": \"hello\"\x7d" false).1 "hello" rfl
